import Mathlib

set_option linter.unusedVariables false

/-!
Verification of the AgentCraft-Factory repository against its specification.

The first part embeds the frontend API client (frontend/src/api.js) and the
React component handlers (ChatScreen.jsx, MyAgentsScreen.jsx, CreateToolForm)
as pure Lean functions over explicit state.  Asynchronous handlers are
modelled as total functions from the pre-state and the outcome of the awaited
network call to the post-state; a thrown JavaScript Error is an
`Except.error`, and a handler that catches every rejection is a total
function into plain state.

The second part models the backend Tool Synthesis and Safety Pipeline
(backend/tools_manager.py, agent_factory.py), whose source is not part of
this snapshot; those definitions are modelled from the specification text
and are marked as such in their doc comments.
-/

/-! ## Substring containment (JavaScript String.prototype.includes) -/

/-- Boolean test that the first character list occurs at the head of the
second one; building block for the substring test below. -/
def leadsWith : List Char → List Char → Bool
  | [], _ => true
  | _ :: _, [] => false
  | a :: pa, b :: sb => a == b && leadsWith pa sb

/-- Boolean test that the first character list occurs contiguously somewhere
inside the second one. -/
def hasSub : List Char → List Char → Bool
  | pat, [] => leadsWith pat []
  | pat, c :: rest => leadsWith pat (c :: rest) || hasSub pat rest

/-- Model of the JavaScript expression `s.includes(pat)`. -/
def strContains (s pat : String) : Bool :=
  hasSub pat.data s.data

/-! ## Model of frontend/src/api.js -/

/-- The JSON error body of a failed HTTP response, as read by
`res.json()` in api.js: the `detail` field may be absent. -/
structure ErrBody where
  detail : Option String
deriving DecidableEq

/-- An HTTP response as observed by the fetch calls in api.js.
`jsonBody = none` models a body that `res.json()` fails to parse, in which
case api.js substitutes `{ detail: res.statusText }`. -/
structure HttpResponse where
  ok : Bool
  status : Nat
  statusText : String
  jsonBody : Option ErrBody
deriving DecidableEq

/-- The friendly 429 message literal used by sendChat and createTool in
api.js. -/
def capacityMsg : String :=
  "The AI service is currently at capacity. Please try again in a few moments."

/-- The `err.detail` value after the line
`const err = await res.json().catch(() => ({ detail: res.statusText }))`
in api.js. -/
def errDetail (r : HttpResponse) : Option String :=
  match r.jsonBody with
  | some b => b.detail
  | none => some r.statusText

/-- The message of the Error thrown by sendChat and createTool on a non-ok
response (api.js lines 17-24 and 38-45): on status 429 the code evaluates
`err.detail || capacityMsg`, otherwise `err.detail || fallback`, where a
missing or empty detail is falsy. -/
def throwMessage (fallback : String) (r : HttpResponse) : String :=
  match errDetail r with
  | some d =>
      if r.status = 429 then (if d = "" then capacityMsg else d)
      else (if d = "" then fallback else d)
  | none =>
      if r.status = 429 then capacityMsg else fallback

/-- Model of `sendChat` in api.js, parameterised by the HTTP response the
fetch resolves to and by the parsed success payload; a thrown Error is an
`Except.error` carrying the Error message. -/
def sendChat {α : Type} (message : String) (sessionId agentId : Option String)
    (r : HttpResponse) (success : α) : Except String α :=
  if r.ok then Except.ok success
  else Except.error (throwMessage ("Chat failed: " ++ toString r.status) r)

/-- Truthiness of an optional JavaScript string argument: `null` and the
empty string are falsy, every other string is truthy. -/
def jsTruthyStr : Option String → Bool
  | some s => !(s == "")
  | none => false

/-- The JSON body POSTed by `createTool` in api.js: the spread
`...(toolName && { tool_name: toolName })` includes the field exactly when
the argument is truthy, and likewise for `agent_id`. -/
structure CreateToolBody where
  prompt : String
  tool_name : Option String
  agent_id : Option String
deriving DecidableEq

/-- The request body built by `createTool(prompt, toolName, agentId)`
(api.js lines 32-36). -/
def createToolRequestBody (prompt : String) (toolName agentId : Option String) :
    CreateToolBody :=
  { prompt := prompt
    tool_name := if jsTruthyStr toolName then toolName else none
    agent_id := if jsTruthyStr agentId then agentId else none }

/-- Model of `createTool` in api.js: returns the POSTed body together with
the outcome (parsed payload on ok, thrown Error message otherwise). -/
def createTool {α : Type} (prompt : String) (toolName agentId : Option String)
    (r : HttpResponse) (success : α) : CreateToolBody × Except String α :=
  (createToolRequestBody prompt toolName agentId,
   if r.ok then Except.ok success
   else Except.error (throwMessage ("Create tool failed: " ++ toString r.status) r))

/-! ## Model of the agent-list consumers (CreateToolForm, MyAgentsScreen) -/

/-- One agent record as consumed by the frontend lists. -/
structure AgentInfo where
  id : String
  name : String
deriving DecidableEq

/-- Outcome of the `listAgents()` promise as seen by a component: either a
resolved payload, whose `agents` field may be absent, or a rejection with an
Error message. -/
inductive AgentsFetch where
  | ok (agents : Option (List AgentInfo))
  | failed (msg : String)
deriving DecidableEq

/-- The state of CreateToolForm that the agent-loading effect touches. -/
structure ToolFormState where
  agents : List AgentInfo
  agentId : String
  loadingAgents : Bool
deriving DecidableEq

/-- Initial CreateToolForm state (useState initialisers). -/
def toolFormInit : ToolFormState :=
  { agents := [], agentId := "", loadingAgents := true }

/-- The CreateToolForm state after the `listAgents()` effect settles
(CreateToolForm lines 21-37): on resolution the agents are stored (defaulting
to the empty list) and the first id is selected; on rejection the catch
stores the empty list; either way the finally clears the loading flag. -/
def toolFormAfterLoad (res : AgentsFetch) : ToolFormState :=
  match res with
  | AgentsFetch.ok data =>
      let l := data.getD []
      { agents := l
        agentId := match l with | a :: _ => a.id | [] => ""
        loadingAgents := false }
  | AgentsFetch.failed _ =>
      { agents := [], agentId := "", loadingAgents := false }

/-- The state of MyAgentsScreen touched by its loading effect. -/
structure AgentsScreenState where
  agents : List AgentInfo
  loading : Bool
  error : Option String
deriving DecidableEq

/-- The MyAgentsScreen state after the `listAgents()` effect settles
(MyAgentsScreen lines 15-28): the catch stores the Error message (with the
JavaScript `err.message || "Failed to load agents"` default) instead of
rethrowing, and the finally clears the loading flag. -/
def agentsScreenAfterLoad (res : AgentsFetch) : AgentsScreenState :=
  match res with
  | AgentsFetch.ok data =>
      { agents := data.getD [], loading := false, error := none }
  | AgentsFetch.failed m =>
      { agents := [], loading := false
        error := some (if m = "" then "Failed to load agents" else m) }

/-- What MyAgentsScreen renders in its scrollable area: which of the four
conditional sections (spinner, error box, empty note, agent list) are
produced by the JSX guards. -/
structure AgentsRender where
  spinner : Bool
  errorBox : Option String
  emptyNote : Bool
  list : Option (List AgentInfo)
deriving DecidableEq

/-- The JSX conditional guards of MyAgentsScreen (lines 38-105): the error
box renders whenever `error` is set, and the list renders only when not
loading, no error, and the agent list is nonempty. -/
def renderAgentsScreen (st : AgentsScreenState) : AgentsRender :=
  { spinner := st.loading
    errorBox := st.error
    emptyNote := !st.loading && st.error == none && st.agents.isEmpty
    list := if !st.loading && st.error == none && !st.agents.isEmpty
            then some st.agents else none }

/-! ## Model of ChatScreen.jsx -/

/-- One transcript entry (role is the literal "user" or "agent" string). -/
structure ChatMsg where
  role : String
  content : String
deriving DecidableEq

/-- The selected tool reference `{ name, path }` held by ChatScreen. -/
structure ToolSel where
  name : String
  path : String
deriving DecidableEq

/-- The ChatScreen state touched by `handleSubmit`. -/
structure ChatState where
  sessionId : String
  messages : List ChatMsg
  input : String
  loading : Bool
  error : Option String
  selectedTool : Option ToolSel
deriving DecidableEq

/-- Outcome of the awaited `sendChat` call inside `handleSubmit`: a resolved
payload (whose `response` and `session_id` fields may be absent) or a
rejection carrying the Error message. -/
inductive SendOutcome where
  | ok (response : Option String) (session_id : Option String)
  | failed (msg : String)
deriving DecidableEq

/-- The arguments `handleSubmit` passes to `sendChat` when it does issue a
network request. -/
structure SentRequest where
  message : String
  session_id : String
  agent_id : Option String
deriving DecidableEq

/-- Model of JavaScript `String.prototype.trim`: strip leading and trailing
whitespace (structural, so it evaluates in the kernel). -/
def jsTrim (s : String) : String :=
  String.mk (((s.data.dropWhile Char.isWhitespace).reverse.dropWhile
    Char.isWhitespace).reverse)

/-- The capacity-specific notice ChatScreen appends to the transcript when a
rejected send mentions capacity or quota (ChatScreen lines 123-125). -/
def chatCapacityNotice : String :=
  "⚠️ The AI service is currently at capacity. This usually means the API quota has been exceeded. Please try again in a few moments, or contact support if the issue persists."

/-- Model of `handleSubmit` in ChatScreen.jsx (lines 95-133), as a function
from the pre-state, the component prop `selectedAgentId`, and the outcome of
the awaited `sendChat`, to the post-state paired with the request that was
sent (`none` when the guard returned early).  The try/catch/finally makes
the handler total: a rejection is converted into a transcript entry, never
rethrown. -/
def handleSubmit (st : ChatState) (selectedAgentId : Option String)
    (outcome : SendOutcome) : ChatState × Option SentRequest :=
  let text := jsTrim st.input
  if text = "" ∨ st.loading = true then (st, none)
  else
    let messageToSend :=
      match st.selectedTool with
      | some t => "Use tool: " ++ t.name ++ "\n\n" ++ text
      | none => text
    let st1 : ChatState :=
      { st with input := "", error := none, selectedTool := none
                messages := st.messages ++ [{ role := "user", content := text }]
                loading := true }
    let req : SentRequest :=
      { message := messageToSend
        session_id := st.sessionId
        agent_id := if jsTruthyStr selectedAgentId then selectedAgentId else none }
    match outcome with
    | SendOutcome.ok response sid =>
        let reply := response.getD "No response."
        let newSid :=
          match sid with
          | some s => if s ≠ "" ∧ s ≠ st1.sessionId then s else st1.sessionId
          | none => st1.sessionId
        ({ st1 with sessionId := newSid
                    messages := st1.messages ++ [{ role := "agent", content := reply }]
                    loading := false },
         some req)
    | SendOutcome.failed m =>
        let errorMessage := if m = "" then "Something went wrong" else m
        let friendly :=
          if strContains errorMessage "capacity" || strContains errorMessage "quota"
          then chatCapacityNotice
          else "Error: " ++ errorMessage
        ({ st1 with error := some errorMessage
                    messages := st1.messages ++ [{ role := "agent", content := friendly }]
                    loading := false },
         some req)

/-! ## Spec-modelled backend: Safety Reviewer (spec section 4.3) -/

/-- Modelled from the spec: the safe/unsafe verdict of the Safety Reviewer
(backend/tools_manager.py is not part of this source snapshot). -/
inductive Verdict where
  | safe
  | notSafe
deriving DecidableEq

/-- Modelled from the spec: the literal forbidden constructs the static scan
looks for — dynamic code evaluation, subprocess invocation, raw environment
enumeration, filesystem open calls (spec section 4.3). -/
def forbiddenConstructs : List String :=
  ["eval(", "exec(", "subprocess", "os.environ", "open("]

/-- Modelled from the spec: the deterministic static scan over the candidate
code, returning the forbidden constructs it finds. -/
def staticScan (code : String) : List String :=
  forbiddenConstructs.filter (fun pat => strContains code pat)

/-- Modelled from the spec: the review operation of the Safety Reviewer.
The classifier pass is abstracted as a Boolean input; the verdict is notSafe
if either the classifier flags the code or the static scan finds a forbidden
construct (logical OR, fail closed), with the reasons attached. -/
def review (classifierFlags : Bool) (code : String) : Verdict × List String :=
  if classifierFlags || !(staticScan code).isEmpty then
    (Verdict.notSafe,
     (if classifierFlags then ["classifier flagged the code"] else []) ++
       (staticScan code).map (fun pat => "forbidden construct: " ++ pat))
  else (Verdict.safe, [])

/-! ## Spec-modelled backend: Identity and Persistence Manager (spec 4.4) -/

/-- Little-endian decimal digits of a number as characters, with explicit
structural fuel so the definition reduces in the kernel. -/
def decDigitsAux : Nat → Nat → List Char
  | 0, _ => []
  | _ + 1, 0 => []
  | fuel + 1, n + 1 =>
      Nat.digitChar ((n + 1) % 10) :: decDigitsAux fuel ((n + 1) / 10)

/-- Decimal rendering of a natural number. -/
def natToStr (n : Nat) : String :=
  if n = 0 then "0" else String.mk (decDigitsAux n n).reverse

/-- Numeric value of a decimal digit character. -/
def charVal (c : Char) : Nat := c.toNat - 48

/-- Value of a little-endian digit character list. -/
def decValue : List Char → Nat
  | [] => 0
  | c :: cs => charVal c + 10 * decValue cs

/-- Parse back a decimal string; left inverse of natToStr. -/
def fromStr (s : String) : Nat := decValue s.data.reverse

/-- A string made only of alphanumeric characters and underscores. -/
def tokenOK (s : String) : Bool :=
  s.data.all (fun c => c.isAlphanum || c == '_')

/-- Modelled from the spec: sanitize a name hint to an
alphanumeric-plus-underscore token truncated to length 40
(spec section 4.4). -/
def sanitize (s : String) : String :=
  String.mk ((s.data.filter (fun c => c.isAlphanum || c == '_')).take 40)

/-- The identifier candidates tried in order: the sanitized base itself, then
the base with the incrementing numeric suffixes 1, 2, ... appended. -/
def candidates (base : String) (n : Nat) : List String :=
  base :: (List.range n).map (fun i => base ++ natToStr (i + 1))

/-- Modelled from the spec: resolve identifier collisions deterministically
by appending an incrementing numeric suffix until an unused identifier is
found (spec section 4.4).  Trying one more candidate than there are used
identifiers always succeeds; the fallback arm is unreachable. -/
def freshId (used : List String) (base : String) : String :=
  match (candidates base (used.length + 1)).find? (fun c => !used.contains c) with
  | some c => c
  | none => base

/-- The identifiers currently present in the artifact store. -/
def usedIds (store : List (String × String)) : List String :=
  store.map Prod.fst

/-- Modelled from the spec: the persist operation of the Identity and
Persistence Manager over a store of (identifier, source code) artifacts;
returns the extended store and the new identifier, never overwriting an
existing artifact (spec section 4.4). -/
def persist (store : List (String × String)) (nameHint code : String) :
    List (String × String) × String :=
  let id := freshId (usedIds store) (sanitize nameHint)
  ((id, code) :: store, id)

/-! ## Spec-modelled backend: the tool-creation pipeline (spec 2, 4.4, 5) -/

/-- Modelled from the spec: the observable events of one pipeline run, in
order (spec section 2 data flow). -/
inductive PipeEvent where
  | synthesize (code : String)
  | reviewed (code : String) (v : Verdict)
  | persisted (id : String) (code : String)
  | linked (agentId : String) (toolId : String)
deriving DecidableEq

/-- Modelled from the spec: one run of the tool-creation pipeline as the
trace of events it emits.  Each attempt synthesizes a candidate and reviews
it; on a passing verdict the pipeline persists the artifact and then links
it to the owning agent when one is given, otherwise it retries until the
attempt budget (the length of the attempts list) is exhausted
(spec sections 2, 4.3, 4.4). -/
def runPipeline (store : List (String × String)) (nameHint : String)
    (owner : Option String) : List (Bool × String) → List PipeEvent
  | [] => []
  | (flag, code) :: rest =>
      PipeEvent.synthesize code ::
      PipeEvent.reviewed code (review flag code).1 ::
      (if (review flag code).1 = Verdict.safe then
        PipeEvent.persisted (persist store nameHint code).2 code ::
          (match owner with
           | some a => [PipeEvent.linked a (persist store nameHint code).2]
           | none => [])
      else runPipeline store nameHint owner rest)

/-- Scan a pipeline trace and check the ordering discipline: an artifact is
persisted only when its code has already received a passing review, and a
link only names an already persisted identifier.  The accumulators carry the
codes reviewed safe and the identifiers persisted so far. -/
def orderOK : List PipeEvent → List String → List String → Bool
  | [], _, _ => true
  | PipeEvent.synthesize _ :: rest, safes, pids => orderOK rest safes pids
  | PipeEvent.reviewed c Verdict.safe :: rest, safes, pids =>
      orderOK rest (c :: safes) pids
  | PipeEvent.reviewed _ Verdict.notSafe :: rest, safes, pids =>
      orderOK rest safes pids
  | PipeEvent.persisted id c :: rest, safes, pids =>
      safes.contains c && orderOK rest safes (id :: pids)
  | PipeEvent.linked _ tid :: rest, safes, pids =>
      pids.contains tid && orderOK rest safes pids

/-! ## Spec-modelled backend: Credential Resolver and Execution Guard
(spec sections 4.1, 4.6) -/

/-- Modelled from the spec: the source from which one required credential
name was satisfied, or a report that it is unsatisfied (spec section 4.1). -/
inductive CredSource where
  | admin
  | env
  | discovered
  | unsatisfiedName
deriving DecidableEq

/-- Modelled from the spec: the credential stores consulted in resolution
order — admin-registered records, process environment, and the results the
automatic discovery step can supply (an empty discovery list models failed
discovery) (spec section 4.1). -/
structure CredEnv where
  admin : List (String × String)
  env : List (String × String)
  discovery : List (String × String)
deriving DecidableEq

/-- Modelled from the spec: per-name resolution in the fixed order admin
record, environment variable, discovery; never raises, reports unsatisfied
names as a value (spec section 4.1). -/
def resolveName (ce : CredEnv) (name : String) : CredSource :=
  if (ce.admin.lookup name).isSome then CredSource.admin
  else if (ce.env.lookup name).isSome then CredSource.env
  else if (ce.discovery.lookup name).isSome then CredSource.discovered
  else CredSource.unsatisfiedName

/-- A declared credential name is satisfied when resolution found it. -/
def satisfiedB (ce : CredEnv) (name : String) : Bool :=
  !(resolveName ce name == CredSource.unsatisfiedName)

/-- Modelled from the spec: a catalog entry as the Execution Guard sees it —
the ordered list of declared credential names (spec sections 3, 4.6). -/
structure ToolSpec where
  creds : List String
deriving DecidableEq

/-- Modelled from the spec: the structured result of invoking a tool through
the Execution Guard (spec sections 4.6, 6). -/
inductive InvokeResult (α : Type) where
  | ok (val : α)
  | missingCredential (name : String)
deriving DecidableEq

/-- Modelled from the spec: the Execution Guard around `invoke_tool`.  It
resolves every declared credential name; if any is unsatisfied it
short-circuits with a structured MissingCredential naming it, without
invoking the function; otherwise it runs the body.  The Boolean records
whether the tool body was executed (spec section 4.6). -/
def invoke_tool {α : Type} (tool : ToolSpec) (ce : CredEnv) (body : Unit → α) :
    InvokeResult α × Bool :=
  match tool.creds.find? (fun n => !satisfiedB ce n) with
  | some n => (InvokeResult.missingCredential n, false)
  | none => (InvokeResult.ok (body ()), true)

/-! ## Helper lemmas: strings and decimal suffixes -/

theorem string_data_inj {a b : String} (h : a.data = b.data) : a = b :=
  congrArg String.mk h

theorem string_append_cancel {a b c : String} (h : a ++ b = a ++ c) : b = c := by
  have hd : a.data ++ b.data = a.data ++ c.data := by
    have := congrArg String.data h
    simpa [String.data_append] using this
  exact string_data_inj (List.append_cancel_left hd)

theorem charVal_digitChar {d : Nat} (h : d < 10) : charVal (Nat.digitChar d) = d := by
  unfold charVal
  interval_cases d <;> rfl

theorem decValue_decDigitsAux :
    ∀ fuel n, n ≤ fuel → decValue (decDigitsAux fuel n) = n := by
  intro fuel
  induction fuel with
  | zero =>
    intro n h
    have : n = 0 := by omega
    subst this
    rfl
  | succ fuel ih =>
    intro n h
    cases n with
    | zero => rfl
    | succ m =>
      have hdiv : (m + 1) / 10 ≤ fuel := by omega
      have hmod : (m + 1) % 10 < 10 := by omega
      calc decValue (decDigitsAux (fuel + 1) (m + 1))
          = charVal (Nat.digitChar ((m + 1) % 10)) +
              10 * decValue (decDigitsAux fuel ((m + 1) / 10)) := by
            simp [decDigitsAux, decValue]
        _ = (m + 1) % 10 + 10 * ((m + 1) / 10) := by
            rw [charVal_digitChar hmod, ih _ hdiv]
        _ = m + 1 := by omega

theorem fromStr_natToStr (n : Nat) : fromStr (natToStr n) = n := by
  cases n with
  | zero => rfl
  | succ m =>
    unfold natToStr fromStr
    simp only [Nat.succ_ne_zero, if_false]
    simp only [List.reverse_reverse]
    exact decValue_decDigitsAux (m + 1) (m + 1) (Nat.le_refl _)

theorem natToStr_inj {a b : Nat} (h : natToStr a = natToStr b) : a = b := by
  have ha := fromStr_natToStr a
  have hb := fromStr_natToStr b
  rw [h] at ha
  omega

theorem natToStr_ne_empty (n : Nat) : natToStr n ≠ "" := by
  cases n with
  | zero => decide
  | succ m =>
    unfold natToStr
    simp only [Nat.succ_ne_zero, if_false]
    intro h
    have hd := congrArg String.data h
    simp [decDigitsAux] at hd

theorem candidates_nodup (base : String) (n : Nat) : (candidates base n).Nodup := by
  unfold candidates
  refine List.nodup_cons.mpr ⟨?_, ?_⟩
  · intro hmem
    obtain ⟨i, hi, heq⟩ := List.mem_map.mp hmem
    have hbase : base ++ natToStr (i + 1) = base ++ "" := by
      simpa using heq
    exact natToStr_ne_empty (i + 1) (string_append_cancel hbase)
  · refine List.Nodup.map ?_ (List.nodup_range n)
    intro i j hij
    have := natToStr_inj (string_append_cancel hij)
    omega

theorem candidates_length (base : String) (n : Nat) :
    (candidates base n).length = n + 1 := by
  simp [candidates]

theorem freshId_not_mem (used : List String) (base : String) :
    freshId used base ∉ used := by
  unfold freshId
  cases hf : (candidates base (used.length + 1)).find? (fun c => !used.contains c) with
  | some c =>
    simp only
    have hp := List.find?_some hf
    simpa [List.contains, List.elem_iff] using hp
  | none =>
    exfalso
    have hall := List.find?_eq_none.mp hf
    have hsub : candidates base (used.length + 1) ⊆ used := by
      intro c hc
      have := hall c hc
      simpa [List.contains, List.elem_iff] using this
    have hsp := (candidates_nodup base (used.length + 1)).subperm hsub
    have hle := hsp.length_le
    rw [candidates_length] at hle
    omega

theorem freshId_mem_candidates (used : List String) (base : String) :
    freshId used base ∈ candidates base (used.length + 1) := by
  unfold freshId
  cases hf : (candidates base (used.length + 1)).find? (fun c => !used.contains c) with
  | some c =>
    simp only
    exact List.mem_of_find?_eq_some hf
  | none =>
    simp only
    exact List.mem_cons_self _ _

theorem digitChar_alphanum {d : Nat} (h : d < 10) :
    ((Nat.digitChar d).isAlphanum || Nat.digitChar d == '_') = true := by
  interval_cases d <;> decide

theorem decDigitsAux_alphanum :
    ∀ fuel n c, c ∈ decDigitsAux fuel n → (c.isAlphanum || c == '_') = true := by
  intro fuel
  induction fuel with
  | zero => intro n c hc; simp [decDigitsAux] at hc
  | succ fuel ih =>
    intro n c hc
    cases n with
    | zero => simp [decDigitsAux] at hc
    | succ m =>
      simp only [decDigitsAux, List.mem_cons] at hc
      rcases hc with rfl | hc
      · exact digitChar_alphanum (by omega)
      · exact ih _ c hc

theorem tokenOK_natToStr (n : Nat) : tokenOK (natToStr n) = true := by
  cases n with
  | zero => decide
  | succ m =>
    unfold natToStr tokenOK
    simp only [Nat.succ_ne_zero, if_false]
    rw [List.all_eq_true]
    intro c hc
    exact decDigitsAux_alphanum _ _ c (List.mem_reverse.mp hc)

theorem tokenOK_append {a b : String} (ha : tokenOK a = true) (hb : tokenOK b = true) :
    tokenOK (a ++ b) = true := by
  unfold tokenOK at *
  rw [String.data_append, List.all_append, ha, hb]
  rfl

theorem tokenOK_sanitize (s : String) : tokenOK (sanitize s) = true := by
  unfold tokenOK sanitize
  rw [List.all_eq_true]
  intro c hc
  have hmem := (List.take_sublist _ _).subset hc
  exact (List.mem_filter.mp hmem).2

theorem tokenOK_freshId (used : List String) (base : String)
    (hb : tokenOK base = true) : tokenOK (freshId used base) = true := by
  have hmem := freshId_mem_candidates used base
  unfold candidates at hmem
  rcases List.mem_cons.mp hmem with heq | hmap
  · rw [heq]; exact hb
  · obtain ⟨i, hi, heq⟩ := List.mem_map.mp hmap
    rw [← heq]
    exact tokenOK_append hb (tokenOK_natToStr (i + 1))

theorem sanitize_length_le (s : String) : (sanitize s).length ≤ 40 := by
  unfold sanitize String.length
  simp only []
  exact List.length_take_le _ _

/-! ## Helper lemmas: pipeline ordering -/

theorem orderOK_runPipeline (store : List (String × String)) (hint : String)
    (owner : Option String) (attempts : List (Bool × String)) :
    ∀ safes pids, orderOK (runPipeline store hint owner attempts) safes pids = true := by
  induction attempts with
  | nil => intro safes pids; rfl
  | cons a rest ih =>
    intro safes pids
    obtain ⟨flag, code⟩ := a
    by_cases hv : (review flag code).1 = Verdict.safe
    · cases owner with
      | none => simp [runPipeline, orderOK, hv]
      | some ag => simp [runPipeline, orderOK, hv]
    · have hv2 : (review flag code).1 = Verdict.notSafe := by
        cases h : (review flag code).1
        · exact absurd h hv
        · rfl
      simpa [runPipeline, orderOK, hv2, hv] using ih safes pids

theorem orderOK_persisted_mem :
    ∀ (pre : List PipeEvent) (suf : List PipeEvent) (id c : String)
      (safes pids : List String),
      orderOK (pre ++ PipeEvent.persisted id c :: suf) safes pids = true →
      PipeEvent.reviewed c Verdict.safe ∈ pre ∨ c ∈ safes := by
  intro pre
  induction pre with
  | nil =>
    intro suf id c safes pids h
    simp only [List.nil_append, orderOK, Bool.and_eq_true] at h
    right
    simpa [List.contains, List.elem_iff] using h.1
  | cons e pre ih =>
    intro suf id c safes pids h
    cases e with
    | synthesize c2 =>
      simp only [List.cons_append, orderOK] at h
      exact (ih suf id c safes pids h).imp (List.mem_cons_of_mem _) (fun x => x)
    | reviewed c2 v =>
      cases v with
      | safe =>
        simp only [List.cons_append, orderOK] at h
        rcases ih suf id c (c2 :: safes) pids h with h1 | h2
        · exact Or.inl (List.mem_cons_of_mem _ h1)
        · rcases List.mem_cons.mp h2 with rfl | h3
          · exact Or.inl (List.mem_cons_self _ _)
          · exact Or.inr h3
      | notSafe =>
        simp only [List.cons_append, orderOK] at h
        exact (ih suf id c safes pids h).imp (List.mem_cons_of_mem _) (fun x => x)
    | persisted id2 c2 =>
      simp only [List.cons_append, orderOK, Bool.and_eq_true] at h
      exact (ih suf id c safes (id2 :: pids) h.2).imp (List.mem_cons_of_mem _) (fun x => x)
    | linked ag tid =>
      simp only [List.cons_append, orderOK, Bool.and_eq_true] at h
      exact (ih suf id c safes pids h.2).imp (List.mem_cons_of_mem _) (fun x => x)

theorem orderOK_linked_mem :
    ∀ (pre : List PipeEvent) (suf : List PipeEvent) (ag tid : String)
      (safes pids : List String),
      orderOK (pre ++ PipeEvent.linked ag tid :: suf) safes pids = true →
      (∃ c, PipeEvent.persisted tid c ∈ pre) ∨ tid ∈ pids := by
  intro pre
  induction pre with
  | nil =>
    intro suf ag tid safes pids h
    simp only [List.nil_append, orderOK, Bool.and_eq_true] at h
    right
    simpa [List.contains, List.elem_iff] using h.1
  | cons e pre ih =>
    intro suf ag tid safes pids h
    cases e with
    | synthesize c2 =>
      simp only [List.cons_append, orderOK] at h
      exact (ih suf ag tid safes pids h).imp
        (fun ⟨c, hc⟩ => ⟨c, List.mem_cons_of_mem _ hc⟩) (fun x => x)
    | reviewed c2 v =>
      cases v with
      | safe =>
        simp only [List.cons_append, orderOK] at h
        exact (ih suf ag tid (c2 :: safes) pids h).imp
          (fun ⟨c, hc⟩ => ⟨c, List.mem_cons_of_mem _ hc⟩) (fun x => x)
      | notSafe =>
        simp only [List.cons_append, orderOK] at h
        exact (ih suf ag tid safes pids h).imp
          (fun ⟨c, hc⟩ => ⟨c, List.mem_cons_of_mem _ hc⟩) (fun x => x)
    | persisted id2 c2 =>
      simp only [List.cons_append, orderOK, Bool.and_eq_true] at h
      rcases ih suf ag tid safes (id2 :: pids) h.2 with h1 | h2
      · exact Or.inl (h1.imp (fun c hc => List.mem_cons_of_mem _ hc))
      · rcases List.mem_cons.mp h2 with rfl | h3
        · exact Or.inl ⟨c2, List.mem_cons_self _ _⟩
        · exact Or.inr h3
    | linked ag2 tid2 =>
      simp only [List.cons_append, orderOK, Bool.and_eq_true] at h
      exact (ih suf ag tid safes pids h.2).imp
        (fun ⟨c, hc⟩ => ⟨c, List.mem_cons_of_mem _ hc⟩) (fun x => x)

/-! ## Claim theorems -/

/-- Claim C1: for every run of the tool-creation pipeline, the persist
operation is invoked only after the Safety Reviewer returned a passing
(safe) verdict on the code being persisted, and linking the new artifact
identifier to an agent occurs only after the artifact was persisted: in
every pipeline trace, a persisted event is preceded by a passing review of
the same code, and a linked event is preceded by a persisted event for the
same identifier. -/
theorem claim_C1 (store : List (String × String)) (hint : String)
    (owner : Option String) (attempts : List (Bool × String)) :
    (∀ pre id c suf,
        runPipeline store hint owner attempts = pre ++ PipeEvent.persisted id c :: suf →
        PipeEvent.reviewed c Verdict.safe ∈ pre) ∧
    (∀ pre ag tid suf,
        runPipeline store hint owner attempts = pre ++ PipeEvent.linked ag tid :: suf →
        ∃ c, PipeEvent.persisted tid c ∈ pre) := by
  constructor
  · intro pre id c suf heq
    have h := orderOK_runPipeline store hint owner attempts [] []
    rw [heq] at h
    rcases orderOK_persisted_mem pre suf id c [] [] h with h1 | h2
    · exact h1
    · simp at h2
  · intro pre ag tid suf heq
    have h := orderOK_runPipeline store hint owner attempts [] []
    rw [heq] at h
    rcases orderOK_linked_mem pre suf ag tid [] [] h with h1 | h2
    · exact h1
    · simp at h2

/-- Witness for C1: a concrete single-attempt run that persists and links,
where the linked event is indeed preceded by the persisted artifact. -/
theorem claim_C1_witness :
    ∃ c, PipeEvent.persisted "t" c ∈
      [PipeEvent.synthesize "x = 1", PipeEvent.reviewed "x = 1" Verdict.safe,
       PipeEvent.persisted "t" "x = 1"] :=
  (claim_C1 [] "t" (some "agent1") [(false, "x = 1")]).2
    [PipeEvent.synthesize "x = 1", PipeEvent.reviewed "x = 1" Verdict.safe,
     PipeEvent.persisted "t" "x = 1"]
    "agent1" "t" [] (by decide)

/-- Claim C2: the review verdict is unsafe whenever the classifier flags the
code or the static scan finds a forbidden construct, and consequently every
code string receiving a safe verdict has an empty static scan. -/
theorem claim_C2 (classifierFlags : Bool) (code : String) :
    ((classifierFlags = true ∨ staticScan code ≠ []) →
        (review classifierFlags code).1 = Verdict.notSafe) ∧
    ((review classifierFlags code).1 = Verdict.safe → staticScan code = []) := by
  constructor
  · intro h
    have hcond : (classifierFlags || !(staticScan code).isEmpty) = true := by
      rcases h with h | h
      · simp [h]
      · simp [List.isEmpty_iff, h]
    simp [review, hcond]
  · intro h
    by_contra hne
    have hcond : (classifierFlags || !(staticScan code).isEmpty) = true := by
      simp [List.isEmpty_iff, hne]
    simp [review, hcond] at h

/-- Witness for C2: a classifier-flagged input and an input whose static
scan finds raw environment enumeration both receive the unsafe verdict. -/
theorem claim_C2_witness :
    (review true "x = 1").1 = Verdict.notSafe ∧
    (review false "import os\nprint(os.environ)").1 = Verdict.notSafe :=
  ⟨(claim_C2 true "x = 1").1 (Or.inl rfl),
   (claim_C2 false "import os\nprint(os.environ)").1 (Or.inr (by decide))⟩

/-- Counterexample for C3 as stated: the claim bounds every returned
identifier by 40 characters, but when a full-length 40-character sanitized
hint collides, the appended numeric suffix pushes the second identifier to
41 characters. -/
theorem claim_C3_counterexample :
    40 < ((persist (persist [] "aaaaaaaaaaaaaaaaaaaaaaaaaaaaaaaaaaaaaaaa" "c1").1
      "aaaaaaaaaaaaaaaaaaaaaaaaaaaaaaaaaaaaaaaa" "c2").2).length := by decide

/-- Claim C3 (amended): two persist calls whose name hints sanitize to the
same token return distinct identifiers, each an alphanumeric-plus-underscore
token (derived from the hint truncated to 40 characters; the collision
suffix may extend past 40), and neither call overwrites the other stored
source code. -/
theorem claim_C3 (store : List (String × String)) (h1 c1 h2 c2 : String)
    (hsame : sanitize h1 = sanitize h2) :
    (persist store h1 c1).2 ≠ (persist (persist store h1 c1).1 h2 c2).2 ∧
    (persist (persist store h1 c1).1 h2 c2).1.lookup (persist store h1 c1).2
      = some c1 ∧
    (persist (persist store h1 c1).1 h2 c2).1.lookup
      (persist (persist store h1 c1).1 h2 c2).2 = some c2 ∧
    tokenOK (persist store h1 c1).2 = true ∧
    tokenOK (persist (persist store h1 c1).1 h2 c2).2 = true := by
  have hfresh : (persist (persist store h1 c1).1 h2 c2).2
      ∉ usedIds (persist store h1 c1).1 :=
    freshId_not_mem _ _
  have hmem1 : (persist store h1 c1).2 ∈ usedIds (persist store h1 c1).1 :=
    List.mem_cons_self _ _
  have hne : (persist store h1 c1).2 ≠ (persist (persist store h1 c1).1 h2 c2).2 := by
    intro heq
    exact hfresh (heq ▸ hmem1)
  have hbeq : ((persist store h1 c1).2 == (persist (persist store h1 c1).1 h2 c2).2)
      = false :=
    beq_eq_false_iff_ne.mpr hne
  refine ⟨hne, ?_, ?_, ?_, ?_⟩
  · show List.lookup (persist store h1 c1).2
      (((persist (persist store h1 c1).1 h2 c2).2, c2) ::
        ((persist store h1 c1).2, c1) :: store) = some c1
    simp [List.lookup, hbeq]
  · show List.lookup (persist (persist store h1 c1).1 h2 c2).2
      (((persist (persist store h1 c1).1 h2 c2).2, c2) ::
        ((persist store h1 c1).2, c1) :: store) = some c2
    simp [List.lookup]
  · exact tokenOK_freshId _ _ (tokenOK_sanitize h1)
  · exact tokenOK_freshId _ _ (tokenOK_sanitize h2)

/-- Witness for C3 at a concrete colliding pair of hints. -/
theorem claim_C3_witness :
    (persist [] "My Tool" "c1").2 ≠ (persist (persist [] "My Tool" "c1").1 "My Tool" "c2").2 :=
  (claim_C3 [] "My Tool" "c1" "My Tool" "c2" rfl).1

/-- Claim C4: if any credential name declared by the invoked tool is
unsatisfied after resolution, invoke_tool returns a structured
MissingCredential naming an unsatisfied declared credential, and the tool
body is never executed. -/
theorem claim_C4 {α : Type} (tool : ToolSpec) (ce : CredEnv) (body : Unit → α)
    (n : String) (hmem : n ∈ tool.creds) (hunsat : satisfiedB ce n = false) :
    ∃ m, (invoke_tool tool ce body).1 = InvokeResult.missingCredential m ∧
      m ∈ tool.creds ∧ satisfiedB ce m = false ∧
      (invoke_tool tool ce body).2 = false := by
  have hsome : (tool.creds.find? (fun k => !satisfiedB ce k)).isSome := by
    rw [List.find?_isSome]
    exact ⟨n, hmem, by simp [hunsat]⟩
  obtain ⟨m, hm⟩ := Option.isSome_iff_exists.mp hsome
  refine ⟨m, ?_, ?_, ?_, ?_⟩
  · simp [invoke_tool, hm]
  · exact List.mem_of_find?_eq_some hm
  · have hp := List.find?_some hm
    simpa using hp
  · simp [invoke_tool, hm]

/-- Witness for C4: the WEATHER_KEY scenario of the spec — no admin record,
no environment value, failed discovery. -/
theorem claim_C4_witness :
    ∃ m, (invoke_tool ⟨["WEATHER_KEY"]⟩ ⟨[], [], []⟩ (fun _ => (0 : Nat))).1 =
        InvokeResult.missingCredential m ∧
      m ∈ (ToolSpec.mk ["WEATHER_KEY"]).creds ∧
      satisfiedB ⟨[], [], []⟩ m = false ∧
      (invoke_tool ⟨["WEATHER_KEY"]⟩ ⟨[], [], []⟩ (fun _ => (0 : Nat))).2 = false :=
  claim_C4 ⟨["WEATHER_KEY"]⟩ ⟨[], [], []⟩ (fun _ => (0 : Nat)) "WEATHER_KEY"
    (by decide) (by decide)

/-- Claim C5: the body POSTed by createTool always carries the prompt,
carries tool_name exactly when the toolName argument is a non-null nonempty
string (with that value), likewise agent_id, and every non-ok response makes
the call throw instead of returning a result. -/
theorem claim_C5 {α : Type} (p : String) (tn aid : Option String)
    (r : HttpResponse) (s : α) :
    (createTool p tn aid r s).1.prompt = p ∧
    ((createTool p tn aid r s).1.tool_name ≠ none ↔ ∃ t, tn = some t ∧ t ≠ "") ∧
    ((createTool p tn aid r s).1.agent_id ≠ none ↔ ∃ a, aid = some a ∧ a ≠ "") ∧
    (∀ t, tn = some t → t ≠ "" → (createTool p tn aid r s).1.tool_name = some t) ∧
    (∀ a, aid = some a → a ≠ "" → (createTool p tn aid r s).1.agent_id = some a) ∧
    (r.ok = false → ∃ e, (createTool p tn aid r s).2 = Except.error e) := by
  refine ⟨rfl, ?_, ?_, ?_, ?_, ?_⟩
  · cases tn with
    | none => simp [createTool, createToolRequestBody, jsTruthyStr]
    | some t =>
      by_cases ht : t = ""
      · subst ht
        simp [createTool, createToolRequestBody, jsTruthyStr]
      · simp [createTool, createToolRequestBody, jsTruthyStr, ht]
  · cases aid with
    | none => simp [createTool, createToolRequestBody, jsTruthyStr]
    | some a =>
      by_cases ha : a = ""
      · subst ha
        simp [createTool, createToolRequestBody, jsTruthyStr]
      · simp [createTool, createToolRequestBody, jsTruthyStr, ha]
  · intro t htn hne
    subst htn
    simp [createTool, createToolRequestBody, jsTruthyStr, hne]
  · intro a ha hne
    subst ha
    simp [createTool, createToolRequestBody, jsTruthyStr, hne]
  · intro hok
    exact ⟨throwMessage ("Create tool failed: " ++ toString r.status) r,
      by simp [createTool, hok]⟩

/-- Witness for C5 at a concrete call with a nonempty tool name and a
failing response. -/
theorem claim_C5_witness :
    (createTool "make a tool" (some "t") none
        (HttpResponse.mk false 500 "ISE" none) ()).1.tool_name = some "t" ∧
    ∃ e, (createTool "make a tool" (some "t") none
        (HttpResponse.mk false 500 "ISE" none) ()).2 = Except.error e :=
  ⟨(claim_C5 "make a tool" (some "t") none (HttpResponse.mk false 500 "ISE" none)
      ()).2.2.2.1 "t" rfl (by decide),
   (claim_C5 "make a tool" (some "t") none (HttpResponse.mk false 500 "ISE" none)
      ()).2.2.2.2.2 rfl⟩

/-- Counterexample for C6 as stated: on a 429 response whose parsed JSON
body HAS a detail field, but equal to the empty string, the thrown message
is the capacity fallback rather than the detail value, because the
JavaScript || treats the empty string as falsy. -/
theorem claim_C6_counterexample :
    sendChat "hi" none none
        (HttpResponse.mk false 429 "" (some (ErrBody.mk (some "")))) () =
      Except.error capacityMsg ∧ capacityMsg ≠ "" :=
  ⟨rfl, by decide⟩

/-- Claim C6 (amended): on every non-ok response both sendChat and
createTool throw (never silently return); the thrown message is the
effective detail (the body detail, or statusText when the body fails to
parse) whenever that is present and nonempty, and when the status is 429
with the effective detail absent or empty the message is exactly the
capacity notice. -/
theorem claim_C6 {α : Type} (msg : String) (sid aid : Option String)
    (p : String) (tn said : Option String) (r : HttpResponse) (s : α)
    (hok : r.ok = false) :
    sendChat msg sid aid r s =
      Except.error (throwMessage ("Chat failed: " ++ toString r.status) r) ∧
    (createTool p tn said r s).2 =
      Except.error (throwMessage ("Create tool failed: " ++ toString r.status) r) ∧
    (∀ fb d, errDetail r = some d → d ≠ "" → throwMessage fb r = d) ∧
    (∀ fb, r.status = 429 → (errDetail r = some "" ∨ errDetail r = none) →
        throwMessage fb r = capacityMsg) := by
  refine ⟨?_, ?_, ?_, ?_⟩
  · simp [sendChat, hok]
  · simp [createTool, hok]
  · intro fb d hd hne
    by_cases h429 : r.status = 429 <;> simp [throwMessage, hd, hne, h429]
  · intro fb h429 hd
    rcases hd with hd | hd <;> simp [throwMessage, hd, h429]

/-- Witness for C6: a concrete 429 response with parsed body lacking the
detail field, where the thrown message is the capacity notice. -/
theorem claim_C6_witness :
    sendChat "hello" none none
        (HttpResponse.mk false 429 "Too Many Requests" (some (ErrBody.mk none))) () =
      Except.error (throwMessage ("Chat failed: " ++ toString (429 : Nat))
        (HttpResponse.mk false 429 "Too Many Requests" (some (ErrBody.mk none)))) :=
  (claim_C6 "hello" none none "p" none none
    (HttpResponse.mk false 429 "Too Many Requests" (some (ErrBody.mk none))) () rfl).1

/-- Claim C7: when the agent-listing request rejects, CreateToolForm
proceeds with an empty agent list and MyAgentsScreen renders an error
message while the list section is not rendered; both catch handlers are
total functions of the rejection, so the failure never escapes as an
exception. -/
theorem claim_C7 (m : String) :
    toolFormAfterLoad (AgentsFetch.failed m) =
      { agents := [], agentId := "", loadingAgents := false } ∧
    (renderAgentsScreen (agentsScreenAfterLoad (AgentsFetch.failed m))).errorBox =
      some (if m = "" then "Failed to load agents" else m) ∧
    (renderAgentsScreen (agentsScreenAfterLoad (AgentsFetch.failed m))).list = none ∧
    (agentsScreenAfterLoad (AgentsFetch.failed m)).loading = false := by
  refine ⟨rfl, rfl, ?_, rfl⟩
  simp [renderAgentsScreen, agentsScreenAfterLoad]

/-- Claim C8: when the awaited send rejects, the chat submit handler catches
the error and appends exactly one agent-role message (the capacity notice
when the message mentions capacity or quota, otherwise the prefixed error
text), resets the loading flag, and never rethrows (the handler is a total
function of the rejection). -/
theorem claim_C8 (st : ChatState) (aid : Option String) (m : String)
    (h1 : jsTrim st.input ≠ "") (h2 : st.loading = false) :
    (handleSubmit st aid (SendOutcome.failed m)).1.messages =
      st.messages ++
        [ChatMsg.mk "user" (jsTrim st.input),
         ChatMsg.mk "agent"
           (if strContains (if m = "" then "Something went wrong" else m) "capacity" ||
               strContains (if m = "" then "Something went wrong" else m) "quota"
            then chatCapacityNotice
            else "Error: " ++ (if m = "" then "Something went wrong" else m))] ∧
    (handleSubmit st aid (SendOutcome.failed m)).1.loading = false ∧
    ((handleSubmit st aid (SendOutcome.failed m)).1.messages.filter
        (fun msg => msg.role == "agent")).length =
      (st.messages.filter (fun msg => msg.role == "agent")).length + 1 := by
  have hmess : (handleSubmit st aid (SendOutcome.failed m)).1.messages =
      st.messages ++
        [ChatMsg.mk "user" (jsTrim st.input),
         ChatMsg.mk "agent"
           (if strContains (if m = "" then "Something went wrong" else m) "capacity" ||
               strContains (if m = "" then "Something went wrong" else m) "quota"
            then chatCapacityNotice
            else "Error: " ++ (if m = "" then "Something went wrong" else m))] := by
    cases hsel : st.selectedTool <;> simp [handleSubmit, h1, h2, hsel]
  refine ⟨hmess, ?_, ?_⟩
  · cases hsel : st.selectedTool <;> simp [handleSubmit, h1, h2, hsel]
  · rw [hmess]
    simp [List.filter_append, List.filter]

/-- Witness for C8 at a concrete rejected send. -/
theorem claim_C8_witness :
    (handleSubmit (ChatState.mk "s1" [] "hi" false none none) none
        (SendOutcome.failed "boom")).1.loading = false :=
  (claim_C8 (ChatState.mk "s1" [] "hi" false none none) none "boom"
    (by decide) rfl).2.1

/-- Claim C9: when the trimmed input is empty or a previous send is still in
flight, the chat submit handler is a no-op: the state (input, sessionId,
messages, loading) is returned unchanged and no request is issued. -/
theorem claim_C9 (st : ChatState) (aid : Option String) (outcome : SendOutcome)
    (h : jsTrim st.input = "" ∨ st.loading = true) :
    handleSubmit st aid outcome = (st, none) := by
  simp only [handleSubmit]
  rw [if_pos h]

/-- Witness for C9 at a whitespace-only input. -/
theorem claim_C9_witness :
    handleSubmit (ChatState.mk "s1" [] "   " false none none) none
      (SendOutcome.failed "x") = (ChatState.mk "s1" [] "   " false none none, none) :=
  claim_C9 (ChatState.mk "s1" [] "   " false none none) none
    (SendOutcome.failed "x") (Or.inl (by decide))

/-- Claim C10: when a tool is selected, the message sent to the backend is
the tool directive followed by two newlines and the trimmed input, the user
message appended to the visible transcript is only the trimmed text, and the
selected tool is cleared by the send. -/
theorem claim_C10 (st : ChatState) (aid : Option String) (outcome : SendOutcome)
    (t : ToolSel) (h1 : jsTrim st.input ≠ "") (h2 : st.loading = false)
    (h3 : st.selectedTool = some t) :
    (∃ req, (handleSubmit st aid outcome).2 = some req ∧
        req.message = "Use tool: " ++ t.name ++ "\n\n" ++ jsTrim st.input ∧
        req.session_id = st.sessionId) ∧
    (handleSubmit st aid outcome).1.selectedTool = none ∧
    (∃ reply, (handleSubmit st aid outcome).1.messages =
        st.messages ++ [ChatMsg.mk "user" (jsTrim st.input),
          ChatMsg.mk "agent" reply]) := by
  refine ⟨?_, ?_, ?_⟩
  · refine ⟨{ message := "Use tool: " ++ t.name ++ "\n\n" ++ jsTrim st.input,
              session_id := st.sessionId,
              agent_id := if jsTruthyStr aid then aid else none }, ?_, rfl, rfl⟩
    cases outcome <;> simp [handleSubmit, h1, h2, h3]
  · cases outcome <;> simp [handleSubmit, h1, h2, h3]
  · cases outcome with
    | ok resp sid =>
      exact ⟨resp.getD "No response.", by simp [handleSubmit, h1, h2, h3]⟩
    | failed em =>
      exact ⟨if strContains (if em = "" then "Something went wrong" else em) "capacity" ||
            strContains (if em = "" then "Something went wrong" else em) "quota"
          then chatCapacityNotice
          else "Error: " ++ (if em = "" then "Something went wrong" else em), by
        simp [handleSubmit, h1, h2, h3]⟩

/-- Witness for C10 at a concrete selected tool and successful send. -/
theorem claim_C10_witness :
    (handleSubmit
        (ChatState.mk "s1" [] "hi" false none (some (ToolSel.mk "weather" "p")))
        none (SendOutcome.ok (some "fine") none)).1.selectedTool = none :=
  (claim_C10 (ChatState.mk "s1" [] "hi" false none (some (ToolSel.mk "weather" "p")))
    none (SendOutcome.ok (some "fine") none) (ToolSel.mk "weather" "p")
    (by decide) rfl rfl).2.1
